import Mathlib

/- Shallow embedding of src/src/main.rs (a Bevy-based tetris).

   Data model:
   - `GameBoard(Vec<Vec<bool>>)` (a 25x25 grid, indexed `game_board.0[y][x]`)
     is modelled as a total function `Board : Nat → Nat → Bool`; writes are
     pointwise updates (`setB`).  Where the Rust code would index out of the
     allocated vectors and panic, the embedding of the affected system
     (`delete_line`) returns `none`.
   - A block entity carries `Position { x, y : i32 }`,
     `RelativePosition { rot_x, rot_y : i32 }` and either a `Free` or a `Fix`
     marker component; it is modelled as a `Cell` record with a `fixed` flag.
     `i32` values are modelled as `Int`; the casts `as usize` / `as u32`
     performed by the code are modelled with `Int.toNat` and with the
     predicate `asU32ge` (a negative `i32` cast to `u32`/`usize` wraps to a
     value ≥ 2^31, hence compares ≥ any small bound).
   - Each Bevy system becomes a function of the data it reads and writes;
     timers/key presses are modelled by invoking the function, and the random
     choice of `spawn_block` is passed as the `pattern` parameter. -/

def X_LENGTH : Nat := 10

def Y_LENGTH : Nat := 18

def Board : Type := Nat → Nat → Bool

def emptyBoard : Board := fun _ _ => false

def setB (b : Board) (y x : Nat) (v : Bool) : Board :=
  fun y' x' => if y' = y ∧ x' = x then v else b y' x'

structure Cell where
  x : Int
  y : Int
  rot_x : Int
  rot_y : Int
  fixed : Bool
deriving DecidableEq

/-- `v as u32 >= bound` for an `i32` value `v` and a bound < 2^31: a negative
`v` wraps to a value ≥ 2^31 and therefore also compares ≥ `bound`. -/
def asU32ge (v : Int) (bound : Nat) : Bool :=
  decide (v < 0) || decide ((bound : Int) ≤ v)

/-- `spawn_block`: `let initial_x = X_LENGTH / 2;` -/
def initial_x : Int := (X_LENGTH : Int) / 2

/-- `spawn_block`: `let initial_y = Y_LENGTH;` -/
def initial_y : Int := (Y_LENGTH : Int)

/-- `spawn_block`'s game-over test: does some relative offset of the chosen
pattern land on an already-locked board cell at the spawn anchor. -/
def spawn_collides (board : Board) (pattern : List (Int × Int)) : Bool :=
  pattern.any fun p => board (initial_y + p.2).toNat (initial_x + p.1).toNat

/-- `spawn_block`: on collision sends `GameOverEvent` (second component
`true`) and creates nothing; otherwise spawns one `Free` cell per offset of
the pattern, at absolute position `(initial_x, initial_y) + offset`, with the
offset stored as its `RelativePosition`. -/
def spawn_block (board : Board) (pattern : List (Int × Int)) (cells : List Cell) :
    List Cell × Bool :=
  if spawn_collides board pattern then (cells, true)
  else
    (cells ++ pattern.map (fun p =>
      { x := initial_x + p.1, y := initial_y + p.2, rot_x := p.1, rot_y := p.2,
        fixed := false }), false)

/-- The `I` entry of `BlockPatterns`. -/
def pattern_I : List (Int × Int) := [(0, 0), (0, -1), (0, 1), (0, 2)]

/-- `calc_rotated_pos` from `block_rotate`: rotation matrix
`[[0, 1], [-1, 0]]` applied to the relative position, re-anchored at
`pos - r_pos`. -/
def calc_rotated_pos (pos r_pos : Int × Int) : (Int × Int) × (Int × Int) :=
  let origin_pos_x := pos.1 - r_pos.1
  let origin_pos_y := pos.2 - r_pos.2
  let new_r_pos_x := 0 * r_pos.1 + 1 * r_pos.2
  let new_r_pos_y := (-1) * r_pos.1 + 0 * r_pos.2
  ((origin_pos_x + new_r_pos_x, origin_pos_y + new_r_pos_y),
   (new_r_pos_x, new_r_pos_y))

/-- One application of the rotation transform to a (position, relative
position) pair, as `block_rotate` performs it on each cell. -/
def rot_step (s : (Int × Int) × (Int × Int)) : (Int × Int) × (Int × Int) :=
  calc_rotated_pos s.1 s.2

/-- `block_rotate`'s per-cell validity test, written as a proposition: the
rotated absolute position has x ∈ [0, X_LENGTH), y ∈ [0, Y_LENGTH) and its
board cell is not locked. -/
def rotate_ok (board : Board) (c : Cell) : Prop :=
  0 ≤ (calc_rotated_pos (c.x, c.y) (c.rot_x, c.rot_y)).1.1 ∧
  (calc_rotated_pos (c.x, c.y) (c.rot_x, c.rot_y)).1.1 < (X_LENGTH : Int) ∧
  0 ≤ (calc_rotated_pos (c.x, c.y) (c.rot_x, c.rot_y)).1.2 ∧
  (calc_rotated_pos (c.x, c.y) (c.rot_x, c.rot_y)).1.2 < (Y_LENGTH : Int) ∧
  board (calc_rotated_pos (c.x, c.y) (c.rot_x, c.rot_y)).1.2.toNat
        (calc_rotated_pos (c.x, c.y) (c.rot_x, c.rot_y)).1.1.toNat = false

instance rotate_ok_decidable (board : Board) (c : Cell) : Decidable (rotate_ok board c) := by
  unfold rotate_ok
  infer_instance

/-- `block_rotate`'s `rotable` check over the `Free` query (fixed cells are
not part of the query). -/
def rotable (board : Board) (cells : List Cell) : Bool :=
  cells.all fun c =>
    c.fixed ||
      (decide (0 ≤ (calc_rotated_pos (c.x, c.y) (c.rot_x, c.rot_y)).1.1) &&
       decide ((calc_rotated_pos (c.x, c.y) (c.rot_x, c.rot_y)).1.1 < (X_LENGTH : Int)) &&
       decide (0 ≤ (calc_rotated_pos (c.x, c.y) (c.rot_x, c.rot_y)).1.2) &&
       decide ((calc_rotated_pos (c.x, c.y) (c.rot_x, c.rot_y)).1.2 < (Y_LENGTH : Int)) &&
       !board (calc_rotated_pos (c.x, c.y) (c.rot_x, c.rot_y)).1.2.toNat
              (calc_rotated_pos (c.x, c.y) (c.rot_x, c.rot_y)).1.1.toNat)

/-- The update `block_rotate` applies to each queried (free) cell when the
rotation is accepted. -/
def rotateCell (c : Cell) : Cell :=
  if c.fixed then c
  else
    { c with
      x := (calc_rotated_pos (c.x, c.y) (c.rot_x, c.rot_y)).1.1,
      y := (calc_rotated_pos (c.x, c.y) (c.rot_x, c.rot_y)).1.2,
      rot_x := (calc_rotated_pos (c.x, c.y) (c.rot_x, c.rot_y)).2.1,
      rot_y := (calc_rotated_pos (c.x, c.y) (c.rot_x, c.rot_y)).2.2 }

/-- `block_rotate` (on an `Up` press): all-or-nothing rotation. -/
def block_rotate (board : Board) (cells : List Cell) : List Cell :=
  if rotable board cells then cells.map rotateCell else cells

/-- The guard skipped by `block_fall`'s cannot-fall test:
`pos.x as u32 >= X_LENGTH || pos.y as u32 >= Y_LENGTH` makes it consider only
cells with x ∈ [0, X_LENGTH) and y ∈ [0, Y_LENGTH). -/
def in_field (c : Cell) : Bool :=
  !asU32ge c.x X_LENGTH && !asU32ge c.y Y_LENGTH

/-- `block_fall`'s `cannot_fall`: some queried (free) cell inside the field
has row 0 or a locked cell directly below. -/
def cannot_fall (board : Board) (cells : List Cell) : Bool :=
  cells.any fun c =>
    !c.fixed && (in_field c && (decide (c.y = 0) || board (c.y - 1).toNat c.x.toNat))

/-- `block_fall` (on an elapsed gravity tick): if the piece cannot fall, turn
every `Free` cell into a `Fix` one, mark its position in the board and send
`NewBlockEvent` (third component `true`); otherwise move every free cell down
one row. -/
def block_fall (board : Board) (cells : List Cell) : Board × List Cell × Bool :=
  if cannot_fall board cells then
    (cells.foldl (fun b c => if c.fixed then b else setB b c.y.toNat c.x.toNat true) board,
     cells.map (fun c => if c.fixed then c else { c with fixed := true }), true)
  else
    (board, cells.map (fun c => if c.fixed then c else { c with y := c.y - 1 }), false)

/-- `block_horizontal_move`'s left-validity test.  Cells with
`pos.y as u32 >= Y_LENGTH` are only bounds-checked (`pos.x > 0`). -/
def ok_move_left (board : Board) (cells : List Cell) : Bool :=
  cells.all fun c =>
    c.fixed ||
      (if asU32ge c.y Y_LENGTH then decide (0 < c.x)
       else if c.x = 0 then false
       else !board c.y.toNat (c.x - 1).toNat)

/-- `block_horizontal_move`'s right-validity test.  Cells with
`pos.y as u32 >= Y_LENGTH` are checked with `pos.x as u32 <= X_LENGTH`
(for a non-negative x this is `x ≤ X_LENGTH`). -/
def ok_move_right (board : Board) (cells : List Cell) : Bool :=
  cells.all fun c =>
    c.fixed ||
      (if asU32ge c.y Y_LENGTH then decide (0 ≤ c.x) && decide (c.x ≤ (X_LENGTH : Int))
       else if c.x = (X_LENGTH : Int) - 1 then false
       else !board c.y.toNat (c.x + 1).toNat)

/-- `block_horizontal_move` (on an elapsed input tick): the `Left` branch
runs first, then the `Right` branch on its outcome; each moves all queried
(free) cells or none. -/
def block_horizontal_move (left right : Bool) (board : Board) (cells : List Cell) :
    List Cell :=
  let cs1 := if left && ok_move_left board cells
    then cells.map (fun c => if c.fixed then c else { c with x := c.x - 1 }) else cells
  if right && ok_move_right board cs1
    then cs1.map (fun c => if c.fixed then c else { c with x := c.x + 1 }) else cs1

/-- One iteration of `block_vertical_move`'s descent loop: some queried
(free) cell has `pos.y < down_height`, or the board is locked at
`(pos.y - down_height, pos.x)`. -/
def collide_at (board : Board) (cells : List Cell) (e : Nat) : Bool :=
  cells.any fun c =>
    !c.fixed && (decide (c.y < (e : Int)) || board (c.y - (e : Int)).toNat c.x.toNat)

/-- Fuel-bounded search for the first colliding `down_height`, starting at
`start`; the Rust `while !collide` loop has no fuel, but for a non-empty free
query it always terminates at or before `(first free cell's y) + 1`, which
the fuel `v_fuel` covers. -/
def search_collide (board : Board) (cells : List Cell) : Nat → Nat → Nat
  | 0, e => e
  | fuel + 1, e =>
      if collide_at board cells e then e else search_collide board cells fuel (e + 1)

def v_fuel (cells : List Cell) : Nat :=
  (match (cells.filter fun c => !c.fixed).head? with
   | none => 0
   | some c => c.y.toNat) + 2

/-- `block_vertical_move`'s final `down_height` (the loop's value minus 1). -/
def down_height (board : Board) (cells : List Cell) : Nat :=
  search_collide board cells (v_fuel cells) 1 - 1

/-- `block_vertical_move` (on a `Down` press, i.e. hard drop): finds the
first colliding height, backs off by one, then for each queried (free) cell
clears its board entry, moves it down and sets its new board entry. -/
def block_vertical_move (board : Board) (cells : List Cell) : Board × List Cell :=
  let d : Int := (down_height board cells : Int)
  cells.foldl
    (fun acc c =>
      if c.fixed then (acc.1, acc.2 ++ [c])
      else
        (setB (setB acc.1 c.y.toNat c.x.toNat false) (c.y - d).toNat c.x.toNat true,
         acc.2 ++ [{ c with y := c.y - d }]))
    (board, [])

/-- Modelled from the spec of §4.3/§8: a placement of the piece `e` rows
further down is valid when every (free) cell keeps row ≥ 0 and lands on no
locked cell.  Used to compare `block_vertical_move` against the claimed
"maximal valid distance" reading. -/
def drop_valid (board : Board) (cells : List Cell) (e : Nat) : Bool :=
  cells.all fun c =>
    c.fixed || (decide (0 ≤ c.y - (e : Int)) && !board (c.y - (e : Int)).toNat c.x.toNat)

/-- `delete_line`'s full-row test for a visible row `y`. -/
def is_full_row (board : Board) (y : Nat) : Bool :=
  (List.range X_LENGTH).all fun x => board y x

/-- `delete_line_set`: the visible rows that are full, computed once from the
board before any removal. -/
def delete_line_set (board : Board) : List Nat :=
  (List.range Y_LENGTH).filter (is_full_row board)

/-- Membership of a cell's `i32` row in `delete_line_set` via the
`pos.y as u32` cast (a negative row wraps and is never a member). -/
def mem_delete (board : Board) (y : Int) : Bool :=
  decide (0 ≤ y) && decide (y < (Y_LENGTH : Int)) && is_full_row board y.toNat

/-- The compaction offset `down` of `delete_line`: the number of full rows
strictly below `y` in the original full-row set. -/
def down_by (board : Board) (y : Int) : Nat :=
  (delete_line_set board).countP fun l => decide ((l : Int) < y)

/-- The out-of-bounds indexing `delete_line` would perform on a `Fix` cell:
a cell of a full row writes `game_board.0[pos.y][pos.x]` (needs x ∈ [0, 25)),
a surviving cell additionally reads `new_y[pos.y]` (needs y ∈ [0, Y_LENGTH)).
Such an access panics in Rust, so the embedding yields no result state. -/
def delete_line_oob (board : Board) (cells : List Cell) : Bool :=
  cells.any fun c =>
    c.fixed &&
      (if mem_delete board c.y then !(decide (0 ≤ c.x) && decide (c.x < 25))
       else !(decide (0 ≤ c.x) && decide (c.x < 25) && decide (0 ≤ c.y) &&
              decide (c.y < (Y_LENGTH : Int))))

/-- The in-bounds body of `delete_line`: first clear the board entries of
`Fix` cells lying in full rows, then (in query order) despawn the cells of
full rows and move every other `Fix` cell to its precomputed
`new_y[pos.y] = pos.y - down` row, clearing its old board entry and setting
the new one. -/
def delete_line_apply (board : Board) (cells : List Cell) : Board × List Cell :=
  let b1 := cells.foldl
    (fun b c =>
      if c.fixed && mem_delete board c.y then setB b c.y.toNat c.x.toNat false else b)
    board
  cells.foldl
    (fun acc c =>
      if !c.fixed then (acc.1, acc.2 ++ [c])
      else if mem_delete board c.y then acc
      else
        (setB (setB acc.1 c.y.toNat c.x.toNat false)
           (c.y - (down_by board c.y : Int)).toNat c.x.toNat true,
         acc.2 ++ [{ c with y := c.y - (down_by board c.y : Int) }]))
    (b1, [])

/-- `delete_line` (on an elapsed gravity tick): `none` models the Rust panic
on an out-of-bounds index. -/
def delete_line (board : Board) (cells : List Cell) : Option (Board × List Cell) :=
  if delete_line_oob board cells then none else some (delete_line_apply board cells)

/-- Spec-side description of one line-clear pass's effect on a single cell
(§4.6): a locked cell of a full row is destroyed, any other locked cell moves
down by the number of full rows strictly below its old row (with the full-row
set taken from the board before any removal), and non-locked cells are not
part of the pass. -/
def delete_shift (board : Board) (c : Cell) : Option Cell :=
  if c.fixed then
    (if mem_delete board c.y then none
     else some { c with y := c.y - (down_by board c.y : Int) })
  else some c

/-- `gameover` (on a received `GameOverEvent`): reset the board to all-false,
despawn every entity with a `Position` and send `NewBlockEvent`. -/
def gameover (_board : Board) (_cells : List Cell) : Board × List Cell × Bool :=
  (fun _ _ => false, [], true)

/-- Board with row 17, column 0 locked (for the gravity band-filter
scenario). -/
def band_board : Board := setB emptyBoard 17 0 true

/-- A piece whose four cells sit just above the visible band, over the
locked cell of `band_board`. -/
def band_cells : List Cell :=
  [⟨0, 18, 0, 0, false⟩, ⟨1, 18, 0, 0, false⟩, ⟨2, 18, 0, 0, false⟩, ⟨3, 18, 0, 0, false⟩]

/-- A free horizontal piece at row 3 on an empty board (hard-drop marking
scenario). -/
def drop_cells : List Cell :=
  [⟨0, 3, 0, 0, false⟩, ⟨1, 3, 0, 0, false⟩, ⟨2, 3, 0, 0, false⟩, ⟨3, 3, 0, 0, false⟩]

/-- Board with a single locked cell at row 3, column 0 (hard-drop overhang
scenario). -/
def tun_board : Board := setB emptyBoard 3 0 true

/-- A free horizontal piece at row 5, above the blocker of `tun_board`. -/
def tun_cells : List Cell :=
  [⟨0, 5, 0, 0, false⟩, ⟨1, 5, 0, 0, false⟩, ⟨2, 5, 0, 0, false⟩, ⟨3, 5, 0, 0, false⟩]

/-- A free horizontal piece in the spawn band, touching the right wall. -/
def row18_cells : List Cell :=
  [⟨6, 18, 0, 0, false⟩, ⟨7, 18, 0, 0, false⟩, ⟨8, 18, 0, 0, false⟩, ⟨9, 18, 0, 0, false⟩]

/-- Board with a locked cell at the spawn anchor (5, 18). -/
def spawn_blocked_board : Board := setB emptyBoard 18 5 true

/-- Board whose visible row 0 is entirely locked. -/
def full_row0_board : Board := fun y x => decide (y = 0) && decide (x < X_LENGTH)

/-- Locked cells matching `full_row0_board` plus one locked cell at
(0, 1) and one free cell at (2, 3). -/
def full_row0_cells : List Cell :=
  [⟨0, 0, 0, 0, true⟩, ⟨1, 0, 0, 0, true⟩, ⟨2, 0, 0, 0, true⟩, ⟨3, 0, 0, 0, true⟩,
   ⟨4, 0, 0, 0, true⟩, ⟨5, 0, 0, 0, true⟩, ⟨6, 0, 0, 0, true⟩, ⟨7, 0, 0, 0, true⟩,
   ⟨8, 0, 0, 0, true⟩, ⟨9, 0, 0, 0, true⟩, ⟨0, 1, 0, 0, true⟩, ⟨2, 3, 0, 0, false⟩]

/-- A fixed cell sitting above the visible band (triggers `delete_line`'s
out-of-bounds index). -/
def above_band_fixed : List Cell := [⟨5, 18, 0, 0, true⟩]

/-- A single free cell used by the hard-drop witness. -/
def single_drop_cells : List Cell := [⟨0, 2, 0, 0, false⟩]

/-- Claim C7: applying `calc_rotated_pos` four times returns every cell to
its original relative offset and absolute position (R⁴ = identity, and the
anchor `pos - r_pos` is preserved at every step). -/
theorem calc_rotated_pos_four_identity (p r : Int × Int) :
    rot_step (rot_step (rot_step (rot_step (p, r)))) = (p, r) := by
  obtain ⟨p1, p2⟩ := p
  obtain ⟨r1, r2⟩ := r
  simp [rot_step, calc_rotated_pos, Prod.ext_iff]

/-- Claim C8, counterexample: spawning the I shape on an empty board puts the
four cells at rows 17, 18, 19, 20 of column 5; in particular no cell is at
(5, 16), so the claimed cell set {(5,16), (5,17), (5,18), (5,20)} is wrong. -/
theorem spawn_scenario_A_counterexample :
    (spawn_block emptyBoard pattern_I []).2 = false ∧
    (spawn_block emptyBoard pattern_I []).1.map (fun c => (c.x, c.y)) =
      [(5, 18), (5, 17), (5, 19), (5, 20)] ∧
    ((5 : Int), (16 : Int)) ∉ (spawn_block emptyBoard pattern_I []).1.map (fun c => (c.x, c.y)) := by
  decide

/-- Claim C8 (amended): spawning the I shape (offsets (0,0), (0,-1), (0,1),
(0,2)) on an empty board places the anchor at (5, 18), collides with nothing,
and creates exactly 4 live free cells at (5,17), (5,18), (5,19), (5,20),
each carrying its offset as relative position. -/
theorem spawn_scenario_A :
    spawn_block emptyBoard pattern_I [] =
      ([⟨5, 18, 0, 0, false⟩, ⟨5, 17, 0, -1, false⟩, ⟨5, 19, 0, 1, false⟩,
        ⟨5, 20, 0, 2, false⟩], false) := by
  decide

/-- Claim C5: the right-shift bound for cells at row ≥ Y_LENGTH is
`pos.x as u32 <= X_LENGTH`, so a piece touching the right wall in the spawn
band is still shifted right and its wall cell ends at column 10 = X_LENGTH,
outside [0, X_LENGTH). -/
theorem shift_right_above_band_escapes :
    block_horizontal_move false true emptyBoard row18_cells =
      [⟨7, 18, 0, 0, false⟩, ⟨8, 18, 0, 0, false⟩, ⟨9, 18, 0, 0, false⟩,
       ⟨10, 18, 0, 0, false⟩] ∧
    ∃ c ∈ block_horizontal_move false true emptyBoard row18_cells,
      (X_LENGTH : Int) ≤ c.x := by
  decide

/-- Claim C4, counterexample: a free piece at row 18 with a locked cell
directly below one of its cells (at (0, 17)) still falls on a gravity tick —
the cannot-fall test skips every cell with row ≥ Y_LENGTH — so the piece is
not locked (no spawn requested) and overlaps the locked cell afterwards. -/
theorem block_fall_ignores_blocked_above_band :
    band_board 17 0 = true ∧
    (block_fall band_board band_cells).2.2 = false ∧
    (block_fall band_board band_cells).2.1 =
      [⟨0, 17, 0, 0, false⟩, ⟨1, 17, 0, 0, false⟩, ⟨2, 17, 0, 0, false⟩,
       ⟨3, 17, 0, 0, false⟩] := by
  decide

/-- Claim C2, counterexample: hard drop (`block_vertical_move`) writes `true`
into the board at the destination of the still-falling piece — after dropping
a free piece from row 3 on an empty board the board is marked at (0, 0) while
every cell of the piece is still `Free`. -/
theorem hard_drop_marks_free_cell :
    (block_vertical_move emptyBoard drop_cells).1 0 0 = true ∧
    ∀ c ∈ (block_vertical_move emptyBoard drop_cells).2, c.fixed = false := by
  decide

/-- Claim C3, counterexample: with a locked cell at (0, 3) and the piece at
row 5, distance 5 satisfies the claim's constraints (all rows ≥ 0, no cell
lands on a locked cell), yet `block_vertical_move` moves the piece only to
row 4 — descent stops at the first obstruction instead of the claimed maximal
constraint-satisfying distance. -/
theorem hard_drop_no_tunnel :
    (block_vertical_move tun_board tun_cells).2 =
      [⟨0, 4, 0, 0, false⟩, ⟨1, 4, 0, 0, false⟩, ⟨2, 4, 0, 0, false⟩,
       ⟨3, 4, 0, 0, false⟩] ∧
    drop_valid tun_board tun_cells 5 = true := by
  decide

/-- Claim C1, counterexample: a locked cell above the visible band (row 18)
makes `delete_line` index `new_y` out of bounds (a Rust panic), so the pass
produces no result state at all, let alone the claimed one. -/
theorem delete_line_dies_above_band :
    delete_line emptyBoard above_band_fixed = none := by
  rfl

theorem rotable_iff (board : Board) (cells : List Cell) :
    rotable board cells = true ↔ ∀ c ∈ cells, c.fixed = false → rotate_ok board c := by
  simp only [rotable, rotate_ok, List.all_eq_true, Bool.or_eq_true, Bool.and_eq_true,
    decide_eq_true_eq, Bool.not_eq_true']
  refine forall₂_congr fun c _ => ?_
  cases hc : c.fixed <;> simp [hc, and_assoc]

/-- Claim C6: the rotation is applied exactly when every queried (free) cell's
rotated absolute position lies in [0, X_LENGTH) × [0, Y_LENGTH) and is not
locked; otherwise the cell list is returned unchanged (atomic reject). -/
theorem block_rotate_spec (board : Board) (cells : List Cell) :
    block_rotate board cells =
      if ∀ c ∈ cells, c.fixed = false → rotate_ok board c then cells.map rotateCell
      else cells := by
  by_cases h : ∀ c ∈ cells, c.fixed = false → rotate_ok board c
  · rw [if_pos h]
    simp only [block_rotate]
    rw [if_pos ((rotable_iff board cells).mpr h)]
  · rw [if_neg h]
    simp only [block_rotate]
    rw [if_neg fun hr => h ((rotable_iff board cells).mp hr)]

theorem lock_fold_eval (cells : List Cell) : ∀ (board : Board) (y x : Nat),
    (cells.foldl (fun b c => if c.fixed then b else setB b c.y.toNat c.x.toNat true) board) y x =
      (board y x ||
        cells.any fun c => !c.fixed && (decide (y = c.y.toNat) && decide (x = c.x.toNat))) := by
  induction cells with
  | nil => intro board y x; simp
  | cons c cs ih =>
      intro board y x
      cases hc : c.fixed
      · simp only [List.foldl_cons, List.any_cons, hc, Bool.not_false, Bool.true_and,
          if_neg Bool.false_ne_true]
        rw [ih]
        by_cases hy : y = c.y.toNat <;> by_cases hx : x = c.x.toNat <;>
          simp [setB, hy, hx, Bool.or_assoc]
      · simp only [List.foldl_cons, List.any_cons, hc, Bool.not_true, Bool.false_and, if_true]
        rw [ih]
        simp

/-- Claim C2 (amended): `block_fall` maintains the board invariant — after a
gravity tick a board cell is `true` iff it was `true` before or the piece
locked on this tick and one of its (free) cells sits there; in particular
when the piece keeps falling nothing is marked.  (Hard drop, by contrast,
violates the original claim: see the counterexample.) -/
theorem block_fall_board_marks_iff (board : Board) (cells : List Cell) (y x : Nat) :
    (block_fall board cells).1 y x = true ↔
      (board y x = true ∨ (cannot_fall board cells = true ∧
        ∃ c ∈ cells, c.fixed = false ∧ y = c.y.toNat ∧ x = c.x.toNat)) := by
  by_cases h : cannot_fall board cells
  · simp only [block_fall, if_pos h]
    rw [lock_fold_eval]
    simp [h, List.any_eq_true, Bool.and_eq_true, decide_eq_true_eq, Bool.not_eq_true',
      and_assoc]
  · simp [block_fall, h]

theorem in_field_iff (c : Cell) :
    in_field c = true ↔
      (0 ≤ c.x ∧ c.x < (X_LENGTH : Int) ∧ 0 ≤ c.y ∧ c.y < (Y_LENGTH : Int)) := by
  simp [in_field, asU32ge, X_LENGTH, Y_LENGTH]
  omega

/-- Claim C4 (amended): on a gravity tick the piece cannot fall exactly when
some free cell *within the field* (x ∈ [0, X_LENGTH), y ∈ [0, Y_LENGTH)) has
row 0 or a locked cell directly below — cells outside that band are skipped
by the test.  When it cannot fall, every free cell becomes fixed, the board
is set at each free cell's position and a new spawn is requested; when it can
fall, every free cell's row decreases by exactly one and the board is
untouched. -/
theorem block_fall_spec (board : Board) (cells : List Cell) :
    (cannot_fall board cells = true ↔
      ∃ c ∈ cells, c.fixed = false ∧
        (0 ≤ c.x ∧ c.x < (X_LENGTH : Int) ∧ 0 ≤ c.y ∧ c.y < (Y_LENGTH : Int)) ∧
        (c.y = 0 ∨ board (c.y - 1).toNat c.x.toNat = true)) ∧
    block_fall board cells =
      (if cannot_fall board cells then
        ((fun y x => board y x ||
            cells.any fun c => !c.fixed && (decide (y = c.y.toNat) && decide (x = c.x.toNat))),
         cells.map (fun c => if c.fixed then c else { c with fixed := true }), true)
       else
        (board, cells.map (fun c => if c.fixed then c else { c with y := c.y - 1 }), false)) := by
  constructor
  · simp only [cannot_fall, List.any_eq_true]
    refine exists_congr fun c => and_congr_right fun _ => ?_
    simp [Bool.and_eq_true, Bool.or_eq_true, Bool.not_eq_true', decide_eq_true_eq,
      in_field_iff c, and_assoc]
  · by_cases h : cannot_fall board cells
    · simp only [block_fall, if_pos h]
      have hb : (cells.foldl
          (fun b c => if c.fixed then b else setB b c.y.toNat c.x.toNat true) board) =
          (fun y x => board y x ||
            cells.any fun c => !c.fixed && (decide (y = c.y.toNat) && decide (x = c.x.toNat))) :=
        funext fun y => funext fun x => lock_fold_eval cells board y x
      rw [hb]
    · simp [block_fall, h]

theorem delete_fold_cells (board : Board) (cells : List Cell) :
    ∀ (b : Board) (acc : List Cell),
    (cells.foldl
      (fun acc c =>
        if !c.fixed then (acc.1, acc.2 ++ [c])
        else if mem_delete board c.y then acc
        else
          (setB (setB acc.1 c.y.toNat c.x.toNat false)
             (c.y - (down_by board c.y : Int)).toNat c.x.toNat true,
           acc.2 ++ [{ c with y := c.y - (down_by board c.y : Int) }]))
      (b, acc)).2 = acc ++ cells.filterMap (delete_shift board) := by
  induction cells with
  | nil => intro b acc; simp
  | cons c cs ih =>
      intro b acc
      cases hc : c.fixed
      · simp only [List.foldl_cons, hc, Bool.not_false, if_true]
        rw [ih]
        simp [delete_shift, hc, List.filterMap_cons]
      · by_cases hm : mem_delete board c.y
        · simp only [List.foldl_cons, hc, Bool.not_true, Bool.false_eq_true, if_false, if_pos hm]
          rw [ih]
          simp [delete_shift, hc, hm, List.filterMap_cons]
        · simp only [List.foldl_cons, hc, Bool.not_true, Bool.false_eq_true, if_false, if_neg hm]
          rw [ih]
          simp [delete_shift, hc, hm, List.filterMap_cons]

/-- Claim C1 (amended): provided every locked cell lies at a column in
[0, 25) and a row in [0, Y_LENGTH) — otherwise the pass index-panics and
yields no state, see the counterexample — a line-clear pass yields a state in
which every locked cell of a full visible row (all X_LENGTH columns locked)
is destroyed, every other locked cell's row decreases by exactly the number
of full rows strictly below its old row (full-row set taken from the board
before any removal), and no other cell is lost or duplicated (the surviving
cells are exactly the `filterMap` image of the old ones). -/
theorem delete_line_spec (board : Board) (cells : List Cell)
    (h : ∀ c ∈ cells, c.fixed = true →
      0 ≤ c.x ∧ c.x < 25 ∧ 0 ≤ c.y ∧ c.y < (Y_LENGTH : Int)) :
    (∃ b' : Board, delete_line board cells =
        some (b', cells.filterMap (delete_shift board))) ∧
    (∀ l : Nat, l ∈ delete_line_set board ↔
        l < Y_LENGTH ∧ ∀ x, x < X_LENGTH → board l x = true) ∧
    (∀ y : Int, mem_delete board y = true ↔
        0 ≤ y ∧ y < (Y_LENGTH : Int) ∧ ∀ x, x < X_LENGTH → board y.toNat x = true) := by
  have hoob : delete_line_oob board cells = false := by
    rw [Bool.eq_false_iff]
    intro hcon
    rw [delete_line_oob, List.any_eq_true] at hcon
    obtain ⟨c, hcmem, hcp⟩ := hcon
    simp only [Bool.and_eq_true] at hcp
    obtain ⟨hfix, hc2⟩ := hcp
    have hb := h c hcmem hfix
    by_cases hm : mem_delete board c.y = true
    · rw [if_pos hm] at hc2
      simp [hb.1, hb.2.1] at hc2
    · rw [if_neg hm] at hc2
      simp [hb.1, hb.2.1, hb.2.2.1, hb.2.2.2] at hc2
  refine ⟨⟨(delete_line_apply board cells).1, ?_⟩, fun l => ?_, fun y => ?_⟩
  · have h2 : (delete_line_apply board cells).2 = cells.filterMap (delete_shift board) := by
      simp only [delete_line_apply]
      rw [delete_fold_cells]
      simp
    rw [delete_line, if_neg (by simp [hoob]), ← h2]
  · simp [delete_line_set, is_full_row, List.mem_filter, List.mem_range, List.all_eq_true,
      and_comm]
  · simp [mem_delete, is_full_row, List.all_eq_true, List.mem_range, Bool.and_eq_true,
      decide_eq_true_eq, and_assoc]

theorem delete_line_spec_witness :
    (∀ c ∈ full_row0_cells, c.fixed = true →
      0 ≤ c.x ∧ c.x < 25 ∧ 0 ≤ c.y ∧ c.y < (Y_LENGTH : Int)) ∧
    ((∃ b' : Board, delete_line full_row0_board full_row0_cells =
        some (b', full_row0_cells.filterMap (delete_shift full_row0_board))) ∧
     (∀ l : Nat, l ∈ delete_line_set full_row0_board ↔
        l < Y_LENGTH ∧ ∀ x, x < X_LENGTH → full_row0_board l x = true) ∧
     (∀ y : Int, mem_delete full_row0_board y = true ↔
        0 ≤ y ∧ y < (Y_LENGTH : Int) ∧ ∀ x, x < X_LENGTH → full_row0_board y.toNat x = true)) :=
  ⟨by decide, delete_line_spec full_row0_board full_row0_cells (by decide)⟩

theorem filter_free_delete_shift (board : Board) (cells : List Cell) :
    (cells.filterMap (delete_shift board)).filter (fun c => !c.fixed) =
      cells.filter (fun c => !c.fixed) := by
  induction cells with
  | nil => rfl
  | cons c cs ih =>
      cases hc : c.fixed
      · simp [delete_shift, hc, List.filterMap_cons, List.filter_cons, ih]
      · by_cases hm : mem_delete board c.y
        · simp [delete_shift, hc, hm, List.filterMap_cons, List.filter_cons, ih]
        · simp [delete_shift, hc, hm, List.filterMap_cons, List.filter_cons, ih]

/-- Claim C10: a line-clear pass never touches the falling piece — it queries
only `Fix` entities, so whenever `delete_line` produces a state, the `Free`
cells (absolute positions and relative offsets alike) come through unchanged
and none is destroyed, even when a free cell's row coincides with a full
row. -/
theorem delete_line_preserves_free (board : Board) (cells : List Cell)
    (b' : Board) (cs' : List Cell)
    (h : delete_line board cells = some (b', cs')) :
    cs'.filter (fun c => !c.fixed) = cells.filter (fun c => !c.fixed) := by
  rw [delete_line] at h
  cases hoob : delete_line_oob board cells
  · rw [hoob] at h
    simp only [Bool.false_eq_true, if_false, Option.some.injEq] at h
    have hcs : cs' = (delete_line_apply board cells).2 := by
      rw [h]
    rw [hcs]
    have h2 : (delete_line_apply board cells).2 = cells.filterMap (delete_shift board) := by
      simp only [delete_line_apply]
      rw [delete_fold_cells]
      simp
    rw [h2, filter_free_delete_shift]
  · rw [hoob] at h
    simp at h

theorem delete_line_preserves_free_witness :
    delete_line full_row0_board full_row0_cells =
      some ((delete_line_apply full_row0_board full_row0_cells).1,
            (delete_line_apply full_row0_board full_row0_cells).2) ∧
    (delete_line_apply full_row0_board full_row0_cells).2.filter (fun c => !c.fixed) =
      full_row0_cells.filter (fun c => !c.fixed) :=
  ⟨rfl, delete_line_preserves_free full_row0_board full_row0_cells
      (delete_line_apply full_row0_board full_row0_cells).1
      (delete_line_apply full_row0_board full_row0_cells).2 rfl⟩

/-- Claim C9: when some computed spawn position already corresponds to a
locked board cell, `spawn_block` creates no cells and emits `GameOver`; the
`gameover` system then clears the whole board (every cell `false`), destroys
every existing cell entity (falling or locked) and requests a new spawn. -/
theorem spawn_gameover_spec (board : Board) (cells : List Cell)
    (pattern : List (Int × Int))
    (h : ∃ p ∈ pattern, board (initial_y + p.2).toNat (initial_x + p.1).toNat = true) :
    spawn_block board pattern cells = (cells, true) ∧
    (∀ y x, (gameover board cells).1 y x = false) ∧
    (gameover board cells).2.1 = [] ∧
    (gameover board cells).2.2 = true := by
  have hc : spawn_collides board pattern = true := by
    rw [spawn_collides, List.any_eq_true]
    exact h
  refine ⟨?_, fun y x => rfl, rfl, rfl⟩
  rw [spawn_block, if_pos hc]

theorem spawn_gameover_spec_witness :
    (∃ p ∈ pattern_I,
      spawn_blocked_board (initial_y + p.2).toNat (initial_x + p.1).toNat = true) ∧
    (spawn_block spawn_blocked_board pattern_I [] = ([], true) ∧
     (∀ y x, (gameover spawn_blocked_board ([] : List Cell)).1 y x = false) ∧
     (gameover spawn_blocked_board ([] : List Cell)).2.1 = [] ∧
     (gameover spawn_blocked_board ([] : List Cell)).2.2 = true) :=
  ⟨by decide, spawn_gameover_spec spawn_blocked_board [] pattern_I (by decide)⟩

theorem collide_at_eq (board : Board) (cells : List Cell) (e : Nat) :
    collide_at board cells e = !drop_valid board cells e := by
  rw [drop_valid, List.all_eq_not_any_not, Bool.not_not, collide_at]
  congr 1
  funext c
  have h1 : decide (c.y < (e : Int)) = decide ¬((0 : Int) ≤ c.y - (e : Int)) := by
    rw [decide_eq_decide]
    omega
  rw [Bool.not_or, Bool.not_and, Bool.not_not, h1, decide_not]

theorem search_collide_head (board : Board) (cells : List Cell) (fuel start : Nat)
    (h : collide_at board cells start = true) :
    search_collide board cells fuel start = start := by
  cases fuel <;> simp [search_collide, h]

theorem search_collide_spec (board : Board) (cells : List Cell) :
    ∀ (fuel start m : Nat), start ≤ m → m < start + fuel →
      collide_at board cells m = true →
      (collide_at board cells (search_collide board cells fuel start) = true ∧
       start ≤ search_collide board cells fuel start ∧
       ∀ e, start ≤ e → e < search_collide board cells fuel start →
         collide_at board cells e = false) := by
  intro fuel
  induction fuel with
  | zero => intro start m h1 h2 _; omega
  | succ f ih =>
      intro start m h1 h2 hm
      by_cases hc : collide_at board cells start = true
      · rw [search_collide_head board cells _ start hc]
        exact ⟨hc, Nat.le_refl _, fun e he1 he2 => absurd he2 (by omega)⟩
      · have hc' : collide_at board cells start = false := by
          cases hcc : collide_at board cells start
          · rfl
          · exact absurd hcc hc
        have hm' : start + 1 ≤ m := by
          rcases Nat.eq_or_lt_of_le h1 with rfl | hlt
          · exact absurd hm hc
          · omega
        obtain ⟨r1, r2, r3⟩ := ih (start + 1) m hm' (by omega) hm
        have hstep : search_collide board cells (f + 1) start =
            search_collide board cells f (start + 1) := by
          simp only [search_collide]
          rw [if_neg (by simp [hc'])]
        rw [hstep]
        refine ⟨r1, by omega, fun e he1 he2 => ?_⟩
        by_cases he : e = start
        · rw [he]; exact hc'
        · exact r3 e (by omega) he2

theorem vmove_fold_snd (d : Int) (cells : List Cell) :
    ∀ (b : Board) (acc : List Cell),
    (cells.foldl
      (fun acc c =>
        if c.fixed then (acc.1, acc.2 ++ [c])
        else
          (setB (setB acc.1 c.y.toNat c.x.toNat false) (c.y - d).toNat c.x.toNat true,
           acc.2 ++ [{ c with y := c.y - d }]))
      (b, acc)).2 =
      acc ++ cells.map (fun c => if c.fixed then c else { c with y := c.y - d }) := by
  induction cells with
  | nil => intro b acc; simp
  | cons c cs ih =>
      intro b acc
      cases hc : c.fixed
      · simp only [List.foldl_cons, hc, Bool.false_eq_true, if_false, List.map_cons]
        rw [ih]
        simp
      · simp only [List.foldl_cons, hc, if_true, List.map_cons]
        rw [ih]
        simp

theorem block_vertical_move_cells (board : Board) (cells : List Cell) :
    (block_vertical_move board cells).2 =
      cells.map (fun c => if c.fixed then c
        else { c with y := c.y - (down_height board cells : Int) }) := by
  simp only [block_vertical_move]
  rw [vmove_fold_snd]
  simp

theorem vmove_fold_fst_true (d : Int) (cells : List Cell) :
    ∀ (b : Board) (acc : List Cell) (y x : Nat),
      b y x = true →
      (∀ c ∈ cells, c.fixed = false → ¬(y = c.y.toNat ∧ x = c.x.toNat)) →
      ((cells.foldl
        (fun acc c =>
          if c.fixed then (acc.1, acc.2 ++ [c])
          else
            (setB (setB acc.1 c.y.toNat c.x.toNat false) (c.y - d).toNat c.x.toNat true,
             acc.2 ++ [{ c with y := c.y - d }]))
        (b, acc)).1) y x = true := by
  induction cells with
  | nil => intro b acc y x hb _; exact hb
  | cons c cs ih =>
      intro b acc y x hb hnot
      cases hc : c.fixed
      · simp only [List.foldl_cons, hc, Bool.false_eq_true, if_false]
        apply ih
        · have hne : ¬(y = c.y.toNat ∧ x = c.x.toNat) :=
            hnot c (List.mem_cons_self c cs) hc
          simp only [setB]
          by_cases h2 : y = (c.y - d).toNat ∧ x = c.x.toNat
          · rw [if_pos h2]
          · rw [if_neg h2, if_neg hne]
            exact hb
        · exact fun c' hc' hf => hnot c' (List.mem_cons_of_mem c hc') hf
      · simp only [List.foldl_cons, hc, if_true]
        exact ih b (acc ++ [c]) y x hb
          (fun c' hc' hf => hnot c' (List.mem_cons_of_mem c hc') hf)

/-- Claim C3 (amended): hard drop moves the piece down by the largest
distance whose every intermediate placement (0, 1, …, d) keeps all rows ≥ 0
and overlaps no locked cell — that is, descent stops just before the first
obstruction rather than at the claim's unconstrained maximal valid distance
(the piece cannot tunnel through a gap beneath an overhang, see the
counterexample) — and invoking hard drop again immediately afterwards leaves
the piece's cells unchanged. -/
theorem hard_drop_spec (board : Board) (cells : List Cell)
    (hne : ∃ c ∈ cells, c.fixed = false)
    (hpos : ∀ c ∈ cells, c.fixed = false → 0 ≤ c.x ∧ 0 ≤ c.y)
    (hfree : ∀ c ∈ cells, c.fixed = false → board c.y.toNat c.x.toNat = false) :
    (∀ e : Nat, e ≤ down_height board cells → drop_valid board cells e = true) ∧
    drop_valid board cells (down_height board cells + 1) = false ∧
    (block_vertical_move board cells).2 =
      cells.map (fun c => if c.fixed then c
        else { c with y := c.y - (down_height board cells : Int) }) ∧
    (block_vertical_move (block_vertical_move board cells).1
        (block_vertical_move board cells).2).2 = (block_vertical_move board cells).2 := by
  have hfilter_ne : (cells.filter fun c => !c.fixed) ≠ [] := by
    intro hnil
    obtain ⟨c₀, hc₀mem, hc₀f⟩ := hne
    have hmemf : c₀ ∈ cells.filter (fun c => !c.fixed) :=
      List.mem_filter.mpr ⟨hc₀mem, by simp [hc₀f]⟩
    rw [hnil] at hmemf
    exact absurd hmemf (List.not_mem_nil c₀)
  obtain ⟨h₀, t₀, hht⟩ := List.exists_cons_of_ne_nil hfilter_ne
  have hh₀ : (cells.filter fun c => !c.fixed).head? = some h₀ := by rw [hht]; rfl
  have hh₀mem : h₀ ∈ cells ∧ h₀.fixed = false := by
    have hmemf : h₀ ∈ cells.filter (fun c => !c.fixed) := by
      rw [hht]; exact List.mem_cons_self h₀ t₀
    have h2 := List.mem_filter.mp hmemf
    exact ⟨h2.1, by simpa using h2.2⟩
  have hvf : v_fuel cells = h₀.y.toNat + 2 := by rw [v_fuel, hh₀]
  have hy₀ : 0 ≤ h₀.y := (hpos h₀ hh₀mem.1 hh₀mem.2).2
  have hm : collide_at board cells (h₀.y.toNat + 1) = true := by
    rw [collide_at, List.any_eq_true]
    refine ⟨h₀, hh₀mem.1, ?_⟩
    have hcast : ((h₀.y.toNat : Nat) : Int) = h₀.y := Int.toNat_of_nonneg hy₀
    have hlt : h₀.y < ((h₀.y.toNat + 1 : Nat) : Int) := by push_cast [hcast]; omega
    simp only [hh₀mem.2, Bool.not_false, Bool.true_and, Bool.or_eq_true]
    exact Or.inl (decide_eq_true hlt)
  obtain ⟨hLc, hL1, hLmin⟩ := search_collide_spec board cells (v_fuel cells) 1
    (h₀.y.toNat + 1) (by omega) (by rw [hvf]; omega) hm
  have hds : down_height board cells + 1 = search_collide board cells (v_fuel cells) 1 := by
    rw [down_height]
    omega
  have hvalid : ∀ e : Nat, e ≤ down_height board cells → drop_valid board cells e = true := by
    intro e he
    by_cases he0 : e = 0
    · rw [he0, drop_valid, List.all_eq_true]
      intro c hc
      by_cases hcf : c.fixed = true
      · simp [hcf]
      · have hcf' : c.fixed = false := by simpa using hcf
        have h1 := (hpos c hc hcf').2
        have h2 := hfree c hc hcf'
        simp [hcf', h1, h2]
    · have hcf : collide_at board cells e = false := hLmin e (by omega) (by omega)
      cases hdv : drop_valid board cells e
      · rw [collide_at_eq, hdv] at hcf
        simp at hcf
      · rfl
  have hinvalid : drop_valid board cells (down_height board cells + 1) = false := by
    have h1 : collide_at board cells (down_height board cells + 1) = true := by
      rw [hds]; exact hLc
    rw [collide_at_eq] at h1
    simpa using h1
  refine ⟨hvalid, hinvalid, block_vertical_move_cells board cells, ?_⟩
  have hLc' : collide_at board cells (down_height board cells + 1) = true := by
    rw [hds]; exact hLc
  rw [collide_at, List.any_eq_true] at hLc'
  obtain ⟨c, hcmem, hcp⟩ := hLc'
  simp only [Bool.and_eq_true, Bool.not_eq_true'] at hcp
  obtain ⟨hcf, hdisj⟩ := hcp
  have hcy : 0 ≤ c.y := (hpos c hcmem hcf).2
  have hcmap : ({ c with y := c.y - (down_height board cells : Int) } : Cell) ∈
      (block_vertical_move board cells).2 := by
    rw [block_vertical_move_cells board cells, List.mem_map]
    refine ⟨c, hcmem, ?_⟩
    rw [if_neg (by simp [hcf])]
  have hcastd : ((down_height board cells + 1 : Nat) : Int) =
      (down_height board cells : Int) + 1 := by push_cast; ring
  have hcol1 : collide_at (block_vertical_move board cells).1
      (block_vertical_move board cells).2 1 = true := by
    rw [collide_at, List.any_eq_true]
    rw [Bool.or_eq_true] at hdisj
    rcases hdisj with hlt | hboard
    · have hlt' : c.y < (down_height board cells : Int) + 1 := by
        rw [← hcastd]
        exact of_decide_eq_true hlt
      have hge : (0 : Int) ≤ c.y - (down_height board cells : Int) := by
        have hv := hvalid (down_height board cells) (Nat.le_refl _)
        rw [drop_valid, List.all_eq_true] at hv
        have hvc := hv c hcmem
        rw [Bool.or_eq_true, Bool.and_eq_true] at hvc
        rcases hvc with hfix | ⟨hge', _⟩
        · rw [hcf] at hfix; exact absurd hfix Bool.false_ne_true
        · exact of_decide_eq_true hge'
      have hyd : c.y - (down_height board cells : Int) = 0 := by omega
      refine ⟨{ c with y := c.y - (down_height board cells : Int) }, hcmap, ?_⟩
      simp [hcf, hyd]
    · have hnotfree : ∀ f ∈ cells, f.fixed = false →
          ¬((c.y - ((down_height board cells + 1 : Nat) : Int)).toNat = f.y.toNat ∧
            c.x.toNat = f.x.toNat) := by
        intro f hf hff hand
        have hfb := hfree f hf hff
        rw [← hand.1, ← hand.2] at hfb
        rw [hfb] at hboard
        exact Bool.false_ne_true hboard
      have hb' : (block_vertical_move board cells).1
          (c.y - ((down_height board cells + 1 : Nat) : Int)).toNat c.x.toNat = true := by
        simp only [block_vertical_move]
        exact vmove_fold_fst_true (down_height board cells : Int) cells board [] _ _
          hboard hnotfree
      refine ⟨{ c with y := c.y - (down_height board cells : Int) }, hcmap, ?_⟩
      have hidx : c.y - (down_height board cells : Int) - ((1 : Nat) : Int) =
          c.y - ((down_height board cells + 1 : Nat) : Int) := by
        rw [hcastd]; push_cast; ring
      simp only [hcf, Bool.not_false, Bool.true_and, hidx]
      rw [hb']
      simp
  have hd2 : down_height (block_vertical_move board cells).1
      (block_vertical_move board cells).2 = 0 := by
    rw [down_height, search_collide_head _ _ _ _ hcol1]
  rw [block_vertical_move_cells (block_vertical_move board cells).1
    (block_vertical_move board cells).2, hd2]
  have hid : ∀ a : Cell,
      (if a.fixed then a else { a with y := a.y - ((0 : Nat) : Int) }) = a := by
    intro a
    by_cases ha : a.fixed = true
    · rw [if_pos ha]
    · rw [if_neg (by simpa using ha)]
      have : a.y - ((0 : Nat) : Int) = a.y := by push_cast; ring
      rw [this]
  calc ((block_vertical_move board cells).2).map
        (fun a => if a.fixed then a else { a with y := a.y - ((0 : Nat) : Int) })
      = ((block_vertical_move board cells).2).map id :=
        List.map_congr_left (fun a _ => hid a)
    _ = (block_vertical_move board cells).2 := List.map_id _

theorem hard_drop_spec_witness :
    (∃ c ∈ single_drop_cells, c.fixed = false) ∧
    (∀ c ∈ single_drop_cells, c.fixed = false → 0 ≤ c.x ∧ 0 ≤ c.y) ∧
    (∀ c ∈ single_drop_cells, c.fixed = false →
      emptyBoard c.y.toNat c.x.toNat = false) ∧
    ((∀ e : Nat, e ≤ down_height emptyBoard single_drop_cells →
        drop_valid emptyBoard single_drop_cells e = true) ∧
     drop_valid emptyBoard single_drop_cells
       (down_height emptyBoard single_drop_cells + 1) = false ∧
     (block_vertical_move emptyBoard single_drop_cells).2 =
       single_drop_cells.map (fun c => if c.fixed then c
         else { c with y := c.y - (down_height emptyBoard single_drop_cells : Int) }) ∧
     (block_vertical_move (block_vertical_move emptyBoard single_drop_cells).1
         (block_vertical_move emptyBoard single_drop_cells).2).2 =
       (block_vertical_move emptyBoard single_drop_cells).2) :=
  ⟨by decide, by decide, by decide,
   hard_drop_spec emptyBoard single_drop_cells (by decide) (by decide) (by decide)⟩
